import Mathlib

/-!
Shallow embedding of the pump-controller core of `backend.py`
(classes `PumpLink` and `QBackend`) from the multiPumpAutomation2
repository, together with theorems settling the specification claims.

Flows, periods and duty fractions are modelled over `ℚ`; the operations
performed by the code on them (copying, comparison with `0`, defaulting,
clamping, swapping, multiplication by `100`) are exact, so the rational
model is faithful to the Python floats for every property stated below.

Wire commands are modelled as an explicit trace of `(LinkId × Cmd)`
pairs recording each call a `QBackend` operation makes into a
`PumpLink` send helper; Qt signal emissions (`connectionChanged`,
`lastErrorChanged`) are modelled as a trace of `Sig` values.
-/

namespace MultiPump

/-- The two physical serial links: Arduino A (`linkA`) and Arduino B (`linkB`). -/
inductive LinkId
  | A
  | B
  deriving DecidableEq

/-- Wire commands of the JSON protocol, one constructor per command shape:
`{"pump": N, "flow": F}`, `{"prime": N}`, `{"stop": N}`, `{"stop_all": true}`
and `{"wave": {...}}`.  The `pump` field is always a LOCAL pump id. -/
inductive Cmd
  | setFlow (pump : Nat) (flow : ℚ)
  | prime (pump : Nat)
  | stop (pump : Nat)
  | stopAll
  | wave (pump : Nat) (shape : String) (period duty minFlow maxFlow : ℚ)
  deriving DecidableEq

/-- State of one `PumpLink`: the `_stop` shutdown flag, whether the serial
port object is open, and whether the RX thread has been started. -/
structure LinkState where
  stopFlag : Bool
  serOpen : Bool
  rxAlive : Bool
  deriving DecidableEq

/-- A freshly constructed `PumpLink`: `_stop = False`, no open port, no RX thread. -/
def LinkState.init : LinkState := ⟨false, false, false⟩

/-- The retry loop of `PumpLink.open`: `while not self._stop:` try to open the
port; a success opens the port, starts the RX thread and returns `True`; a
failure sleeps and retries.  The environment is modelled by the list of
outcomes of successive connection attempts; `none` means the loop would
keep retrying past every modelled attempt (the stop flag cannot change
inside the loop in this single-threaded model). -/
def openLoop (s : LinkState) : List Bool → Option (LinkState × Bool)
  | [] => if s.stopFlag then some (s, false) else none
  | a :: rest =>
    if s.stopFlag then some (s, false)
    else if a then some ({ s with serOpen := true, rxAlive := true }, true)
    else openLoop s rest

/-- `PumpLink.open`: returns `True` at once if the port is already open,
otherwise enters the retry loop. -/
def PumpLink.openLink (s : LinkState) (attempts : List Bool) : Option (LinkState × Bool) :=
  if s.serOpen then some (s, true) else openLoop s attempts

/-- `PumpLink.close`: sets `self._stop = True` and closes the port if open. -/
def PumpLink.close (s : LinkState) : LinkState :=
  { s with stopFlag := true, serOpen := false }

/-- Qt signal emissions of `QBackend`: `connectionChanged(bool)` and
`lastErrorChanged(str)`. -/
inductive Sig
  | connection (ok : Bool)
  | lastErr (msg : String)
  deriving DecidableEq

/-- State of `QBackend`: `last_flows`, `paused_flows` (Python dicts from
global pump id to flow) and `_last_error`. -/
structure QB where
  lastFlows : Nat → Option ℚ
  pausedFlows : Nat → Option ℚ
  lastError : String

/-- A freshly constructed `QBackend`: empty dicts, empty error string. -/
def QB.init : QB := ⟨fun _ => none, fun _ => none, ""⟩

/-- Python dict assignment `m[k] = v`. -/
def upd (m : Nat → Option ℚ) (k : Nat) (v : ℚ) : Nat → Option ℚ :=
  fun q => if q = k then some v else m q

/-- `PUMP_MAP_A = {1: 1, 4: 2, 5: 3, 7: 4, 8: 5}`. -/
def PUMP_MAP_A (p : Nat) : Option Nat :=
  if p = 1 then some 1 else if p = 4 then some 2 else if p = 5 then some 3
  else if p = 7 then some 4 else if p = 8 then some 5 else none

/-- `PUMP_MAP_B = {2: 1, 3: 2, 6: 3, 9: 4}`. -/
def PUMP_MAP_B (p : Nat) : Option Nat :=
  if p = 2 then some 1 else if p = 3 then some 2 else if p = 6 then some 3
  else if p = 9 then some 4 else none

/-- The pure routing content of `QBackend._route_pump`: global id to
`(link, local id)`, `none` for an invalid id. -/
def routePump (p : Nat) : Option (LinkId × Nat) :=
  match PUMP_MAP_A p with
  | some l => some (LinkId.A, l)
  | none =>
    match PUMP_MAP_B p with
    | some l => some (LinkId.B, l)
    | none => none

/-- `QBackend._set_error`: records and emits the message only when it
differs from the stored `_last_error`. -/
def setError (s : QB) (msg : String) : QB × List Sig :=
  if msg = s.lastError then (s, [])
  else ({ s with lastError := msg }, [Sig.lastErr msg])

/-- The error text `f"Invalid pump id {p}"` produced by `_route_pump`. -/
def invalidMsg (p : Nat) : String := "Invalid pump id " ++ toString p

/-- The effect of an operation hitting the invalid-id branch of
`_route_pump`: a `_set_error` call, no wire command. -/
def errEff (s : QB) (p : Nat) : QB × List (LinkId × Cmd) × List Sig :=
  let r := setError s (invalidMsg p)
  (r.1, [], r.2)

/-- Period normalization in `PumpLink.start_wave`:
`period_sec = float(period_sec) if period_sec > 0 else 1.0`. -/
def periodNorm (p : ℚ) : ℚ := if p > 0 then p else 1

/-- Duty-fraction normalization in `PumpLink.start_wave`:
`if duty_fraction <= 0: duty_fraction = 0.5` then
`if duty_fraction >= 1: duty_fraction = 0.99`. -/
def dutyNorm (d : ℚ) : ℚ :=
  let d1 := if d ≤ 0 then (1 : ℚ)/2 else d
  if d1 ≥ 1 then (99 : ℚ)/100 else d1

/-- Min/max flow derivation in `PumpLink.start_wave`: the base-flow rule,
the `None` defaults (missing min becomes `0`, missing max becomes the
defaulted min), the clamp of both bounds to `≥ 0`, and the final swap of
inverted bounds. -/
def deriveBounds (minF maxF baseF : Option ℚ) : ℚ × ℚ :=
  let mM : Option ℚ × Option ℚ :=
    if minF = none ∧ maxF = none ∧ baseF ≠ none then (some 0, baseF) else (minF, maxF)
  let m0 : ℚ := mM.1.getD 0
  let M0 : ℚ := mM.2.getD m0
  let m1 : ℚ := max 0 m0
  let M1 : ℚ := max 0 M0
  if M1 < m1 then (M1, m1) else (m1, M1)

/-- The wave command built and sent by `PumpLink.start_wave`. -/
def startWaveCmd (pump : Nat) (shape : String) (periodSec dutyFraction : ℚ)
    (minF maxF baseF : Option ℚ) : Cmd :=
  let b := deriveBounds minF maxF baseF
  Cmd.wave pump shape (periodNorm periodSec) (dutyNorm dutyFraction * 100) b.1 b.2

/-- `PumpLink.wave_off`: `start_wave` with shape `"off"`, period `1.0`,
duty `0.5`, `min_flow = 0`, `max_flow = fallback_flow`. -/
def waveOffCmd (pump : Nat) (fallback : ℚ) : Cmd :=
  startWaveCmd pump ("off") 1 ((1 : ℚ)/2) (some 0) (some fallback) none

/-- `QBackend.set_flow`: route, record into `last_flows`, send a
constant-flow command. -/
def qsetFlow (s : QB) (p : Nat) (f : ℚ) : QB × List (LinkId × Cmd) × List Sig :=
  match routePump p with
  | none => errEff s p
  | some (l, loc) =>
    ({ s with lastFlows := upd s.lastFlows p f }, [(l, Cmd.setFlow loc f)], [])

/-- `QBackend.prime`: route and send a prime command. -/
def qprime (s : QB) (p : Nat) : QB × List (LinkId × Cmd) × List Sig :=
  match routePump p with
  | none => errEff s p
  | some (l, loc) => (s, [(l, Cmd.prime loc)], [])

/-- `QBackend.stop`: route, send a stop command, then `wave_off(local, 0.0)`;
`last_flows` is deliberately not cleared. -/
def qstop (s : QB) (p : Nat) : QB × List (LinkId × Cmd) × List Sig :=
  match routePump p with
  | none => errEff s p
  | some (l, loc) => (s, [(l, Cmd.stop loc), (l, waveOffCmd loc 0)], [])

/-- `QBackend.stopAll`: a stop-all command to each link; `last_flows` kept. -/
def qstopAll (s : QB) : QB × List (LinkId × Cmd) × List Sig :=
  (s, [(LinkId.A, Cmd.stopAll), (LinkId.B, Cmd.stopAll)], [])

/-- `QBackend.open`: opens both links (outcomes `okA`, `okB` supplied by the
environment), emits `connectionChanged(okA and okB)`, then records the
failure message or clears the error on success. -/
def qopen (s : QB) (okA okB : Bool) : QB × List (LinkId × Cmd) × List Sig :=
  let ok := okA && okB
  let r := if ok then setError s ("")
    else setError s ("Failed to open one or both serial ports")
  (r.1, [], Sig.connection ok :: r.2)

/-- `QBackend.close`: closes both links and emits `connectionChanged(False)`. -/
def qclose (s : QB) : QB × List (LinkId × Cmd) × List Sig :=
  (s, [], [Sig.connection false])

/-- `QBackend.pauseAll`: snapshot `paused_flows = dict(last_flows)`, then a
stop-all command to each link. -/
def pauseAll (s : QB) : QB × List (LinkId × Cmd) × List Sig :=
  ({ s with pausedFlows := s.lastFlows },
    [(LinkId.A, Cmd.stopAll), (LinkId.B, Cmd.stopAll)], [])

/-- Sequencing of a per-pump loop body over a list of global ids,
threading the state and concatenating the traces. -/
def runSteps (f : QB → Nat → QB × List (LinkId × Cmd) × List Sig) :
    QB → List Nat → QB × List (LinkId × Cmd) × List Sig
  | s, [] => (s, [], [])
  | s, p :: rest =>
    let r1 := f s p
    let r2 := runSteps f r1.1 rest
    (r2.1, r1.2.1 ++ r2.2.1, r1.2.2 ++ r2.2.2)

/-- One iteration of the `QBackend.pausePumps` loop: save the last flow if
known, then route and send a stop command. -/
def pauseStep (s : QB) (p : Nat) : QB × List (LinkId × Cmd) × List Sig :=
  let s1 := match s.lastFlows p with
    | some f => { s with pausedFlows := upd s.pausedFlows p f }
    | none => s
  match routePump p with
  | some (l, loc) => (s1, [(l, Cmd.stop loc)], [])
  | none => errEff s1 p

/-- `QBackend.pausePumps`. -/
def pausePumps (s : QB) (ids : List Nat) : QB × List (LinkId × Cmd) × List Sig :=
  runSteps pauseStep s ids

/-- The flow that `QBackend.resumePumps` picks for a pump:
`self.paused_flows.get(p, self.last_flows.get(p, 0.0))`. -/
def effFlow (s : QB) (p : Nat) : ℚ :=
  (s.pausedFlows p).getD ((s.lastFlows p).getD 0)

/-- One iteration of the `QBackend.resumePumps` restore loop: if the chosen
flow is positive, route and re-send it as a constant-flow command and
update `last_flows`; otherwise leave the pump off. -/
def resumeStep (s : QB) (p : Nat) : QB × List (LinkId × Cmd) × List Sig :=
  let flow := effFlow s p
  if flow > 0 then
    match routePump p with
    | none => errEff s p
    | some (l, loc) =>
      ({ s with lastFlows := upd s.lastFlows p flow }, [(l, Cmd.setFlow loc flow)], [])
  else (s, [], [])

/-- The trailing loop of `resumePumps`:
`for p in ids: self.paused_flows.pop(p, None)`. -/
def popAll (m : Nat → Option ℚ) (ids : List Nat) : Nat → Option ℚ :=
  fun q => if q ∈ ids then none else m q

/-- `QBackend.resumePumps`: the restore loop followed by clearing the
paused snapshot of every requested id. -/
def resumePumps (s : QB) (ids : List Nat) : QB × List (LinkId × Cmd) × List Sig :=
  let r := runSteps resumeStep s ids
  ({ r.1 with pausedFlows := popAll r.1.pausedFlows ids }, r.2.1, r.2.2)

/-- One iteration of the `QBackend.startAutomation` pulsatile loop: skip a
pump with no positive recorded base, else route and start a `0..base`
wave with the given shape, period and duty. -/
def autoStep (shape : String) (periodSec duty : ℚ) (s : QB) (p : Nat) :
    QB × List (LinkId × Cmd) × List Sig :=
  let base := (s.lastFlows p).getD 0
  if base ≤ 0 then (s, [], [])
  else
    match routePump p with
    | none => errEff s p
    | some (l, loc) =>
      (s, [(l, startWaveCmd loc shape periodSec duty (some 0) (some base) none)], [])

/-- Model of Python `s.lower().startswith(pre)` on the ASCII mode strings
used by the code, via the character list of the string. -/
def lowerStartsWith (s pre : String) : Bool :=
  pre.data.isPrefixOf (s.data.map Char.toLower)

/-- `QBackend.startAutomation`: mode dispatch on
`mode.lower().startswith(...)`; `minutes` is accepted but unused. -/
def startAutomation (s : QB) (pumps : List Nat) (mode shape : String)
    (minutes periodSec duty : ℚ) : QB × List (LinkId × Cmd) × List Sig :=
  if lowerStartsWith mode ("constant") then (s, [], [])
  else if lowerStartsWith mode ("pulsatile") then
    runSteps (autoStep shape periodSec duty) s pumps
  else (s, [], [])

/-- `QBackend.startWaveForPump`: route, opportunistically remember a
positive `maxFlow` as the pump's last flow, and send the wave command. -/
def startWaveForPump (s : QB) (p : Nat) (shape : String)
    (periodSec duty minF maxF : ℚ) : QB × List (LinkId × Cmd) × List Sig :=
  match routePump p with
  | none => errEff s p
  | some (l, loc) =>
    let s1 := if maxF > 0 then { s with lastFlows := upd s.lastFlows p maxF } else s
    (s1, [(l, startWaveCmd loc shape periodSec duty (some minF) (some maxF) none)], [])

/-- `QBackend.set_calibration`: routed for validation, deliberately no wire
effect. -/
def setCalibration (s : QB) (p : Nat) (v : ℚ) : QB × List (LinkId × Cmd) × List Sig :=
  match routePump p with
  | none => errEff s p
  | some _ => (s, [], [])

/-- The public operations of `QBackend`, for whole-run temporal properties.
`connect` carries the environment's per-link open outcomes. -/
inductive Op
  | connect (okA okB : Bool)
  | disconnect
  | primeOp (p : Nat)
  | stopOp (p : Nat)
  | stopAllOp
  | setFlowOp (p : Nat) (f : ℚ)
  | pauseAllOp
  | pausePumpsOp (ids : List Nat)
  | resumePumpsOp (ids : List Nat)
  | autoOp (pumps : List Nat) (mode shape : String) (minutes periodSec duty : ℚ)
  | waveForPumpOp (p : Nat) (shape : String) (periodSec duty minF maxF : ℚ)
  | calibrateOp (p : Nat) (v : ℚ)

/-- Dispatch one operation. -/
def step (s : QB) : Op → QB × List (LinkId × Cmd) × List Sig
  | Op.connect a b => qopen s a b
  | Op.disconnect => qclose s
  | Op.primeOp p => qprime s p
  | Op.stopOp p => qstop s p
  | Op.stopAllOp => qstopAll s
  | Op.setFlowOp p f => qsetFlow s p f
  | Op.pauseAllOp => pauseAll s
  | Op.pausePumpsOp ids => pausePumps s ids
  | Op.resumePumpsOp ids => resumePumps s ids
  | Op.autoOp pumps mode shape minutes periodSec duty =>
      startAutomation s pumps mode shape minutes periodSec duty
  | Op.waveForPumpOp p shape periodSec duty mn mx =>
      startWaveForPump s p shape periodSec duty mn mx
  | Op.calibrateOp p v => setCalibration s p v

/-- Run a sequence of operations, concatenating wire and signal traces. -/
def run (s : QB) : List Op → QB × List (LinkId × Cmd) × List Sig
  | [] => (s, [], [])
  | o :: rest =>
    let r1 := step s o
    let r2 := run r1.1 rest
    (r2.1, r1.2.1 ++ r2.2.1, r1.2.2 ++ r2.2.2)

/-- The texts of the `lastErrorChanged` emissions in a signal trace. -/
def errTexts (sigs : List Sig) : List String :=
  sigs.filterMap fun g =>
    match g with
    | Sig.lastErr m => some m
    | _ => none

/-- The period field of a wave command. -/
def wavePeriod : Cmd → Option ℚ
  | Cmd.wave _ _ per _ _ _ => some per
  | _ => none

/-- The duty field of a wave command. -/
def waveDuty : Cmd → Option ℚ
  | Cmd.wave _ _ _ d _ _ => some d
  | _ => none

/-- The min/max flow fields of a wave command. -/
def waveMinMax : Cmd → Option (ℚ × ℚ)
  | Cmd.wave _ _ _ _ mn mx => some (mn, mx)
  | _ => none

/-- The local pump a command addresses (`stop_all` addresses none). -/
def cmdPump : Cmd → Option Nat
  | Cmd.setFlow q _ => some q
  | Cmd.prime q => some q
  | Cmd.stop q => some q
  | Cmd.stopAll => none
  | Cmd.wave q _ _ _ _ _ => some q

/-- Whether a trace entry addresses the link and local id that global pump
`p` routes to. -/
def forPump (p : Nat) (e : LinkId × Cmd) : Bool :=
  match routePump p with
  | some (l, loc) => decide (e.1 = l) && decide (cmdPump e.2 = some loc)
  | none => false

/-- The full global id space of the reference deployment. -/
def allIds : List Nat := [1, 2, 3, 4, 5, 6, 7, 8, 9]

/-- Clamp-then-swap applied to two explicit bounds: both to `≥ 0`, then
swap if inverted.  Steps 4 and 5 of the shared derivation rule. -/
def clampSwap (a b : ℚ) : ℚ × ℚ :=
  let a1 := max 0 a
  let b1 := max 0 b
  if b1 < a1 then (b1, a1) else (a1, b1)

/-! ### Routing facts -/

lemma routePump_big {p : Nat} (h : 10 ≤ p) : routePump p = none := by
  have h1 : ¬ p = 1 := by omega
  have h2 : ¬ p = 2 := by omega
  have h3 : ¬ p = 3 := by omega
  have h4 : ¬ p = 4 := by omega
  have h5 : ¬ p = 5 := by omega
  have h6 : ¬ p = 6 := by omega
  have h7 : ¬ p = 7 := by omega
  have h8 : ¬ p = 8 := by omega
  have h9 : ¬ p = 9 := by omega
  simp [routePump, PUMP_MAP_A, PUMP_MAP_B, h1, h2, h3, h4, h5, h6, h7, h8, h9]

lemma routePump_none_iff (p : Nat) : routePump p = none ↔ ¬(1 ≤ p ∧ p ≤ 9) := by
  by_cases hp : p < 10
  · have small : ∀ q, q < 10 → (routePump q = none ↔ ¬(1 ≤ q ∧ q ≤ 9)) := by decide
    exact small p hp
  · constructor
    · intro _; omega
    · intro _; exact routePump_big (by omega)

lemma routePump_inj {p q : Nat} {r : LinkId × Nat}
    (hp : routePump p = some r) (hq : routePump q = some r) : p = q := by
  have hplt : p < 10 := by
    by_contra h
    rw [routePump_big (by omega)] at hp
    exact Option.noConfusion hp
  have hqlt : q < 10 := by
    by_contra h
    rw [routePump_big (by omega)] at hq
    exact Option.noConfusion hq
  by_contra hne
  have key : ∀ (a b : Fin 10), a.val ≠ b.val →
      routePump a.val = routePump b.val → routePump a.val = none := by decide
  have hn := key ⟨p, hplt⟩ ⟨q, hqlt⟩ hne (hp.trans hq.symm)
  rw [hp] at hn
  exact Option.noConfusion hn

/-! ### Claim C1 — wave bound derivation -/

/-- Claim C1, counterexample: with `min_flow = 5` supplied and `max_flow`
and `base_flow` missing, `start_wave` sends `min = 5, max = 5`, not the
`min = 0, max = 5` the claim asserts: the code defaults a missing max to
the (already defaulted) min, not to `0`. -/
theorem C1_counterexample :
    startWaveCmd 1 ("Square") 2 (1/2) (some 5) none none
      = Cmd.wave 1 ("Square") 2 50 5 5 ∧
    waveMinMax (startWaveCmd 1 ("Square") 2 (1/2) (some 5) none none) ≠ some (0, 5) := by
  have h : startWaveCmd 1 ("Square") 2 (1/2) (some 5) none none
      = Cmd.wave 1 ("Square") 2 50 5 5 := by
    norm_num [startWaveCmd, deriveBounds, dutyNorm, periodNorm]
  refine ⟨h, ?_⟩
  rw [h]
  simp [waveMinMax]

/-- Claim C1 as amended: if both `min_flow` and `max_flow` are supplied
they are used as-is; else if only `base_flow` is supplied then `min = 0`,
`max = base_flow`; otherwise a missing min defaults to `0` and a missing
max defaults to the (possibly defaulted) min; both bounds are clamped to
`≥ 0` and swapped if inverted.  In particular `(min=5, max=None,
base=None)` yields a sent wave with `min = 5, max = 5`.  The spec's three
worked examples hold unchanged. -/
theorem C1_amended_derivation :
    (∀ (m M : ℚ) (bF : Option ℚ), deriveBounds (some m) (some M) bF = clampSwap m M) ∧
    (∀ b : ℚ, deriveBounds none none (some b) = clampSwap 0 b) ∧
    (∀ (m : ℚ) (bF : Option ℚ), deriveBounds (some m) none bF = clampSwap m m) ∧
    (∀ (M : ℚ) (bF : Option ℚ), deriveBounds none (some M) bF = clampSwap 0 M) ∧
    deriveBounds none none none = (0, 0) ∧
    deriveBounds none none (some 20) = (0, 20) ∧
    deriveBounds (some 5) (some 2) none = (2, 5) ∧
    (∀ (shape : String) (per du : ℚ),
      waveMinMax (startWaveCmd 1 shape per du (some 5) none none) = some (5, 5)) := by
  refine ⟨?_, ?_, ?_, ?_, ?_, ?_, ?_, ?_⟩
  · intro m M bF; simp [deriveBounds, clampSwap]
  · intro b; simp [deriveBounds, clampSwap]
  · intro m bF; simp [deriveBounds, clampSwap]
  · intro M bF; simp [deriveBounds, clampSwap]
  · simp [deriveBounds]
  · simp [deriveBounds]
  · norm_num [deriveBounds]
  · intro shape per du
    have h : deriveBounds (some 5) none none = (5, 5) := by norm_num [deriveBounds]
    simp [startWaveCmd, h, waveMinMax]

/-! ### Claim C2 — link lifecycle after close -/

/-- Claim C2, counterexample: a link that was open and then closed is
handed a succeeding connection attempt, yet `open()` returns `False` and
the port stays closed — `close()` sets the stop flag and nothing ever
clears it, so the claimed closed→open re-transition is impossible. -/
theorem C2_counterexample :
    PumpLink.openLink (PumpLink.close ⟨false, true, true⟩) [true]
        = some (⟨true, false, true⟩, false) ∧
    (PumpLink.openLink (PumpLink.close ⟨false, true, true⟩) [true]).map
        (fun r => r.2) = some false := by
  constructor <;> decide

/-- Claim C2 as amended: once `close()` has run, every later `open()`
returns `False` immediately, whatever the connection attempts would do;
`open()` returns `False` only when the shutdown flag is set; and before
any shutdown a closed link's `open()` returns `True` as soon as some
connection attempt succeeds (starting the reader). -/
theorem C2_amended_lifecycle :
    (∀ (s : LinkState) (attempts : List Bool),
      PumpLink.openLink (PumpLink.close s) attempts = some (PumpLink.close s, false)) ∧
    (∀ (s : LinkState) (attempts : List Bool) (t : LinkState),
      PumpLink.openLink s attempts = some (t, false) → s.stopFlag = true) ∧
    (∀ (s : LinkState) (attempts : List Bool),
      s.stopFlag = false → s.serOpen = false → true ∈ attempts →
      PumpLink.openLink s attempts
        = some ({ s with serOpen := true, rxAlive := true }, true)) := by
  refine ⟨?_, ?_, ?_⟩
  · intro s attempts
    cases attempts <;> simp [PumpLink.openLink, PumpLink.close, openLoop]
  · intro s attempts
    induction attempts with
    | nil =>
      intro t h
      by_cases hs : s.serOpen
      · simp [PumpLink.openLink, hs] at h
      · by_cases hf : s.stopFlag
        · exact hf
        · simp [PumpLink.openLink, hs, openLoop, hf] at h
    | cons a rest ih =>
      intro t h
      by_cases hs : s.serOpen
      · simp [PumpLink.openLink, hs] at h
      · by_cases hf : s.stopFlag
        · exact hf
        · by_cases ha : a = true
          · simp [PumpLink.openLink, hs, openLoop, hf, ha] at h
          · simp only [Bool.not_eq_true] at ha
            have h' : PumpLink.openLink s rest = some (t, false) := by
              simp only [PumpLink.openLink, hs, if_false] at h ⊢
              simpa [openLoop, hf, ha] using h
            exact ih t h'
  · intro s attempts
    induction attempts with
    | nil => intro _ _ hm; simp at hm
    | cons a rest ih =>
      intro hf hs hm
      by_cases ha : a = true
      · simp [PumpLink.openLink, hs, openLoop, hf, ha]
      · simp only [Bool.not_eq_true] at ha
        have hm' : true ∈ rest := by
          rcases List.mem_cons.mp hm with h | h
          · rw [ha] at h; exact absurd h (by simp)
          · exact h
        have := ih hf hs hm'
        simp only [PumpLink.openLink, hs, if_false] at this ⊢
        simpa [openLoop, hf, ha] using this

/-- Witness for C2's amended theorem at a concrete closed link and a
succeeding attempt list. -/
theorem C2_amended_lifecycle_witness :
    PumpLink.openLink LinkState.init [false, true]
      = some (⟨false, true, true⟩, true) :=
  C2_amended_lifecycle.2.2 LinkState.init [false, true] rfl rfl (by simp)

/-! ### Claim C6 — stop sends stop then wave-off -/

/-- Claim C6: for a valid global pump id, `stop` sends exactly the stop
command followed by the wave-off command with shape `"off"`, fallback
`min = max = 0` for the same local pump, and leaves the whole backend
state (in particular `last_flows`) unchanged. -/
theorem C6_stop_then_wave_off (s : QB) (p : Nat) (l : LinkId) (loc : Nat)
    (h : routePump p = some (l, loc)) :
    qstop s p = (s, [(l, Cmd.stop loc), (l, Cmd.wave loc ("off") 1 50 0 0)], []) := by
  have hw : waveOffCmd loc 0 = Cmd.wave loc ("off") 1 50 0 0 := by
    norm_num [waveOffCmd, startWaveCmd, deriveBounds, dutyNorm, periodNorm]
  simp [qstop, h, hw]

/-- Witness for C6 at global pump 1 (link A, local 1). -/
theorem C6_stop_then_wave_off_witness :
    qstop QB.init 1
      = (QB.init, [(LinkId.A, Cmd.stop 1), (LinkId.A, Cmd.wave 1 ("off") 1 50 0 0)], []) :=
  C6_stop_then_wave_off QB.init 1 LinkId.A 1 (by decide)

/-! ### Claim C7 — duty-fraction normalization -/

/-- Claim C7: the duty normalization of `start_wave` sends `50%` for any
input `≤ 0`, `99%` for any input `≥ 1`, and `100·d` for `0 < d < 1`; the
normalized fraction always lies in the open interval `(0, 1)`, and the
wave command's duty field is exactly the normalized fraction times 100. -/
theorem C7_duty_normalization (d : ℚ) :
    (d ≤ 0 → dutyNorm d * 100 = 50) ∧
    (1 ≤ d → dutyNorm d * 100 = 99) ∧
    (0 < d → d < 1 → dutyNorm d * 100 = d * 100) ∧
    (0 < dutyNorm d ∧ dutyNorm d < 1) ∧
    (∀ (pump : Nat) (shape : String) (per : ℚ) (a b c : Option ℚ),
      waveDuty (startWaveCmd pump shape per d a b c) = some (dutyNorm d * 100)) := by
  refine ⟨?_, ?_, ?_, ?_, ?_⟩
  · intro h
    rw [show dutyNorm d = 1/2 by norm_num [dutyNorm, h]]
    norm_num
  · intro h
    have hd : ¬ d ≤ 0 := by linarith
    rw [show dutyNorm d = 99/100 by norm_num [dutyNorm, hd, h]]
    norm_num
  · intro h0 h1
    have hd : ¬ d ≤ 0 := by linarith
    have hd1 : ¬ d ≥ 1 := by linarith
    rw [show dutyNorm d = d by norm_num [dutyNorm, hd, hd1]]
  · simp only [dutyNorm]
    split_ifs with h1 h2 h3
    · exact absurd h2 (by norm_num)
    · exact ⟨by norm_num, by norm_num⟩
    · exact ⟨by norm_num, by norm_num⟩
    · exact ⟨by linarith, by linarith⟩
  · intro pump shape per a b c
    simp [startWaveCmd, waveDuty]

/-- Witness for C7 at the spec's three sample inputs 0, 1 and 0.25. -/
theorem C7_duty_normalization_witness :
    dutyNorm 0 * 100 = 50 ∧ dutyNorm 1 * 100 = 99 ∧ dutyNorm (1/4) * 100 = 25 := by
  refine ⟨(C7_duty_normalization 0).1 le_rfl, (C7_duty_normalization 1).2.1 le_rfl, ?_⟩
  rw [(C7_duty_normalization (1/4)).2.2.1 (by norm_num) (by norm_num)]
  norm_num

/-! ### Generic lemmas about the per-pump loops -/

lemma runSteps_cmds (f : QB → Nat → QB × List (LinkId × Cmd) × List Sig)
    (g : Nat → Option (LinkId × Cmd)) (Inv : QB → Prop)
    (hstep : ∀ s p, Inv s → (f s p).2.1 = (g p).toList ∧ Inv (f s p).1) :
    ∀ (ids : List Nat) (s : QB), Inv s →
      (runSteps f s ids).2.1 = ids.filterMap g := by
  intro ids
  induction ids with
  | nil => intro s _; rfl
  | cons p rest ih =>
    intro s hs
    obtain ⟨hc, hinv⟩ := hstep s p hs
    have hr := ih (f s p).1 hinv
    simp only [runSteps]
    rw [hc, hr]
    cases hg : g p <;> simp [List.filterMap_cons, hg]

lemma pauseStep_cmds (s : QB) (p : Nat) :
    (pauseStep s p).2.1 = ((routePump p).map (fun r => (r.1, Cmd.stop r.2))).toList := by
  unfold pauseStep errEff
  cases s.lastFlows p <;> cases hr : routePump p <;> simp [hr]

lemma pauseStep_last (s : QB) (p : Nat) :
    ((pauseStep s p).1).lastFlows = s.lastFlows := by
  unfold pauseStep errEff setError
  cases s.lastFlows p <;> cases hr : routePump p <;> simp [hr] <;> split_ifs <;> rfl

lemma pauseStep_paused_of (s : QB) (p : Nat) (f : ℚ) (h : s.lastFlows p = some f) :
    ((pauseStep s p).1).pausedFlows p = some f := by
  unfold pauseStep errEff setError
  rw [h]
  cases hr : routePump p <;> simp [hr, upd] <;> split_ifs <;> simp [upd]

lemma pauseStep_paused_other (s : QB) (p q : Nat) (h : q ≠ p) :
    ((pauseStep s p).1).pausedFlows q = s.pausedFlows q := by
  unfold pauseStep errEff setError
  cases s.lastFlows p <;> cases hr : routePump p <;>
    simp [hr, upd, h] <;> split_ifs <;> simp [upd, h]

lemma pausePumps_last (ids : List Nat) (s : QB) :
    ((pausePumps s ids).1).lastFlows = s.lastFlows := by
  induction ids generalizing s with
  | nil => rfl
  | cons p rest ih =>
    show ((runSteps pauseStep s (p :: rest)).1).lastFlows = s.lastFlows
    simp only [runSteps]
    rw [show (runSteps pauseStep (pauseStep s p).1 rest).1 = (pausePumps (pauseStep s p).1 rest).1 from rfl]
    rw [ih (pauseStep s p).1, pauseStep_last]

lemma pausePumps_paused_notmem (ids : List Nat) (s : QB) (q : Nat) (h : q ∉ ids) :
    ((pausePumps s ids).1).pausedFlows q = s.pausedFlows q := by
  induction ids generalizing s with
  | nil => rfl
  | cons p rest ih =>
    have hq : q ≠ p := fun hh => h (hh ▸ List.mem_cons_self p rest)
    have hrest : q ∉ rest := fun hh => h (List.mem_cons_of_mem p hh)
    show ((runSteps pauseStep s (p :: rest)).1).pausedFlows q = s.pausedFlows q
    simp only [runSteps]
    rw [show (runSteps pauseStep (pauseStep s p).1 rest).1 = (pausePumps (pauseStep s p).1 rest).1 from rfl]
    rw [ih (pauseStep s p).1 hrest, pauseStep_paused_other s p q hq]

lemma pausePumps_paused_mem (ids : List Nat) (s : QB) (p : Nat) (f : ℚ)
    (hmem : p ∈ ids) (h : s.lastFlows p = some f) :
    ((pausePumps s ids).1).pausedFlows p = some f := by
  induction ids generalizing s with
  | nil => cases hmem
  | cons q rest ih =>
    show ((runSteps pauseStep s (q :: rest)).1).pausedFlows p = some f
    simp only [runSteps]
    rw [show (runSteps pauseStep (pauseStep s q).1 rest).1 = (pausePumps (pauseStep s q).1 rest).1 from rfl]
    by_cases hrest : p ∈ rest
    · exact ih (pauseStep s q).1 hrest (by rw [pauseStep_last]; exact h)
    · have hpq : p = q := by
        rcases List.mem_cons.mp hmem with hh | hh
        · exact hh
        · exact absurd hh hrest
      subst hpq
      rw [pausePumps_paused_notmem rest (pauseStep s p).1 p hrest]
      exact pauseStep_paused_of s p f h

lemma resumeStep_paused (s : QB) (p : Nat) :
    ((resumeStep s p).1).pausedFlows = s.pausedFlows := by
  simp only [resumeStep]
  split_ifs with h
  · cases hr : routePump p
    · simp only [errEff, setError]
      split_ifs <;> rfl
    · rfl
  · rfl

lemma resumeStep_last_other (s : QB) (p q : Nat) (h : q ≠ p) :
    ((resumeStep s p).1).lastFlows q = s.lastFlows q := by
  simp only [resumeStep]
  split_ifs with hf
  · cases hr : routePump p
    · simp only [errEff, setError]
      split_ifs <;> rfl
    · simp [upd, h]
  · rfl

lemma resumeStep_eff (s : QB) (p q : Nat) :
    effFlow ((resumeStep s p).1) q = effFlow s q := by
  by_cases hq : q = p
  · subst hq
    simp only [resumeStep]
    split_ifs with hf
    · cases hr : routePump q
      · simp only [errEff, setError]
        split_ifs <;> rfl
      · cases hz : s.pausedFlows q <;> simp [effFlow, hz, upd]
    · rfl
  · unfold effFlow
    rw [resumeStep_paused, resumeStep_last_other s p q hq]

lemma resumeStep_cmds (s0 s : QB) (p : Nat) (h : ∀ q, effFlow s q = effFlow s0 q) :
    (resumeStep s p).2.1
      = ((if effFlow s0 p > 0 then
          (routePump p).map (fun r => (r.1, Cmd.setFlow r.2 (effFlow s0 p)))
        else none)).toList := by
  simp only [resumeStep, errEff]
  rw [← h p]
  by_cases hf : effFlow s p > 0
  · rw [if_pos hf, if_pos hf]
    cases hr : routePump p
    · rfl
    · rfl
  · rw [if_neg hf, if_neg hf]
    rfl

lemma runSteps_resume_paused (ids : List Nat) (s : QB) :
    ((runSteps resumeStep s ids).1).pausedFlows = s.pausedFlows := by
  induction ids generalizing s with
  | nil => rfl
  | cons p rest ih =>
    simp only [runSteps]
    rw [ih (resumeStep s p).1, resumeStep_paused]

lemma resumePumps_cmds (s : QB) (ids : List Nat) :
    (resumePumps s ids).2.1
      = ids.filterMap (fun p => if effFlow s p > 0 then
          (routePump p).map (fun r => (r.1, Cmd.setFlow r.2 (effFlow s p)))
        else none) := by
  show (runSteps resumeStep s ids).2.1 = _
  exact runSteps_cmds resumeStep _ (fun t => ∀ q, effFlow t q = effFlow s q)
    (fun t p ht => ⟨resumeStep_cmds s t p ht,
      fun q => (resumeStep_eff t p q).trans (ht q)⟩) ids s (fun _ => rfl)

/-! ### Claim C4 — addressing: static partition, invalid ids -/

/-- Claim C4: (a) `_route_pump` fails exactly on the global ids outside
`1..9`; (b) on `1..9` it returns the static partition; (c) every per-pump
operation handed an invalid id reduces to the `_set_error` effect: no
wire command, `last_flows` and `paused_flows` untouched, the addressing
error recorded and emitted when it differs from the stored error; (d) in
the batch operation `pausePumps`, each id contributes its own routed stop
command independently, so an invalid id aborts only its own portion. -/
theorem C4_routing_and_errors :
    (∀ p : Nat, routePump p = none ↔ ¬(1 ≤ p ∧ p ≤ 9)) ∧
    (routePump 1 = some (LinkId.A, 1) ∧ routePump 4 = some (LinkId.A, 2) ∧
     routePump 5 = some (LinkId.A, 3) ∧ routePump 7 = some (LinkId.A, 4) ∧
     routePump 8 = some (LinkId.A, 5) ∧ routePump 2 = some (LinkId.B, 1) ∧
     routePump 3 = some (LinkId.B, 2) ∧ routePump 6 = some (LinkId.B, 3) ∧
     routePump 9 = some (LinkId.B, 4)) ∧
    (∀ (s : QB) (p : Nat), routePump p = none →
      (∀ f : ℚ, qsetFlow s p f = errEff s p) ∧
      qprime s p = errEff s p ∧
      qstop s p = errEff s p ∧
      (∀ (shape : String) (per du mn mx : ℚ),
        startWaveForPump s p shape per du mn mx = errEff s p) ∧
      (∀ v : ℚ, setCalibration s p v = errEff s p) ∧
      (errEff s p).2.1 = [] ∧
      ((errEff s p).1).lastFlows = s.lastFlows ∧
      ((errEff s p).1).pausedFlows = s.pausedFlows ∧
      ((errEff s p).1).lastError = invalidMsg p ∧
      (s.lastError ≠ invalidMsg p → (errEff s p).2.2 = [Sig.lastErr (invalidMsg p)])) ∧
    (∀ (s : QB) (ids : List Nat),
      (pausePumps s ids).2.1
        = ids.filterMap (fun q => (routePump q).map (fun r => (r.1, Cmd.stop r.2)))) := by
  refine ⟨routePump_none_iff, by decide, ?_, ?_⟩
  · intro s p h
    refine ⟨?_, ?_, ?_, ?_, ?_, ?_, ?_, ?_, ?_, ?_⟩
    · intro f; simp [qsetFlow, h]
    · simp [qprime, h]
    · simp [qstop, h]
    · intro shape per du mn mx; simp [startWaveForPump, h]
    · intro v; simp [setCalibration, h]
    · rfl
    · unfold errEff setError; split_ifs <;> rfl
    · unfold errEff setError; split_ifs <;> rfl
    · unfold errEff setError; split_ifs with hh
      · exact hh.symm
      · rfl
    · intro hne
      unfold errEff setError
      rw [if_neg (fun hh => hne hh.symm)]
  · intro s ids
    exact runSteps_cmds pauseStep _ (fun _ => True)
      (fun t p _ => ⟨pauseStep_cmds t p, trivial⟩) ids s trivial

/-- Witness for C4 at the invalid global id 10 and backend `QB.init`. -/
theorem C4_routing_and_errors_witness :
    qsetFlow QB.init 10 5 = errEff QB.init 10 ∧
    (errEff QB.init 10).2.1 = [] ∧
    (errEff QB.init 10).2.2 = [Sig.lastErr (invalidMsg 10)] := by
  have h := C4_routing_and_errors.2.2.1 QB.init 10 (by decide)
  exact ⟨h.1 5, h.2.2.2.2.2.1, h.2.2.2.2.2.2.2.2.2 (by decide)⟩

/-! ### Claim C5 — paused_flows lifecycle -/

/-- Claim C5: `resumePumps(S)` ends with no `paused_flow` entry for any id
in `S`, whether or not a restore command was sent, and leaves entries
outside `S` alone; `pausePumps(S)` creates the snapshot for every id of
`S` with a recorded last flow and touches no other entry — so a paused
flow exists only between a pause and the matching resume. -/
theorem C5_paused_flow_lifecycle :
    (∀ (s : QB) (ids : List Nat) (p : Nat), p ∈ ids →
      ((resumePumps s ids).1).pausedFlows p = none) ∧
    (∀ (s : QB) (ids : List Nat) (q : Nat), q ∉ ids →
      ((resumePumps s ids).1).pausedFlows q = s.pausedFlows q) ∧
    (∀ (s : QB) (ids : List Nat) (p : Nat) (f : ℚ), p ∈ ids → s.lastFlows p = some f →
      ((pausePumps s ids).1).pausedFlows p = some f) ∧
    (∀ (s : QB) (ids : List Nat) (p : Nat), p ∉ ids →
      ((pausePumps s ids).1).pausedFlows p = s.pausedFlows p) := by
  refine ⟨?_, ?_, ?_, ?_⟩
  · intro s ids p hmem
    simp [resumePumps, popAll, hmem]
  · intro s ids q hmem
    simp only [resumePumps, popAll]
    rw [if_neg hmem, runSteps_resume_paused]
  · intro s ids p f hmem h
    exact pausePumps_paused_mem ids s p f hmem h
  · intro s ids p h
    exact pausePumps_paused_notmem ids s p h

/-- Witness for C5: pausing then resuming pump 1 (last flow 10) leaves no
paused entry for it; pump 2's entries are never touched. -/
theorem C5_paused_flow_lifecycle_witness :
    ((resumePumps (pausePumps ⟨upd (fun _ => none) 1 10, fun _ => none, ""⟩ [1]).1 [1]).1).pausedFlows 1 = none ∧
    ((pausePumps ⟨upd (fun _ => none) 1 10, fun _ => none, ""⟩ [1]).1).pausedFlows 1 = some 10 := by
  constructor
  · exact C5_paused_flow_lifecycle.1 _ [1] 1 (List.mem_singleton.mpr rfl)
  · exact C5_paused_flow_lifecycle.2.2.1 _ [1] 1 10 (List.mem_singleton.mpr rfl) (by simp [upd])

/-! ### Filtering a routed trace down to one pump's commands -/

lemma filter_filterMap_none {pred : LinkId × Cmd → Bool} {g : Nat → Option (LinkId × Cmd)} :
    ∀ {ids : List Nat}, (∀ q ∈ ids, ∀ e, g q = some e → pred e = false) →
      List.filter pred (List.filterMap g ids) = [] := by
  intro ids
  induction ids with
  | nil => intro _; rfl
  | cons q rest ih =>
    intro h
    cases hg : g q
    · simp only [List.filterMap_cons, hg]
      exact ih fun r hr => h r (List.mem_cons_of_mem q hr)
    · rename_i e
      simp only [List.filterMap_cons, hg, List.filter_cons,
        h q (List.mem_cons_self q rest) e hg]
      exact ih fun r hr => h r (List.mem_cons_of_mem q hr)

lemma filter_filterMap_single {pred : LinkId × Cmd → Bool} {g : Nat → Option (LinkId × Cmd)} :
    ∀ {ids : List Nat} {p : Nat}, p ∈ ids → ids.Nodup →
      (∀ q ∈ ids, q ≠ p → ∀ e, g q = some e → pred e = false) →
      (∀ e, g p = some e → pred e = true) →
      List.filter pred (List.filterMap g ids) = (g p).toList := by
  intro ids
  induction ids with
  | nil => intro p hmem; cases hmem
  | cons q rest ih =>
    intro p hmem hnd hothers hself
    rcases List.mem_cons.mp hmem with hpq | hprest
    · subst hpq
      have hnotin : p ∉ rest := (List.nodup_cons.mp hnd).1
      have hrest : List.filter pred (List.filterMap g rest) = [] :=
        filter_filterMap_none fun r hr e he =>
          hothers r (List.mem_cons_of_mem p hr) (fun hrp => hnotin (hrp ▸ hr)) e he
      cases hg : g p
      · simp only [List.filterMap_cons, hg, hrest, Option.toList]
      · rename_i e
        simp [List.filterMap_cons, hg, List.filter_cons, hself e hg, hrest, Option.toList]
    · have hqp : q ≠ p := fun hh => (List.nodup_cons.mp hnd).1 (hh ▸ hprest)
      have hstep := ih hprest (List.nodup_cons.mp hnd).2
        (fun r hr => hothers r (List.mem_cons_of_mem q hr))
        hself
      cases hg : g q
      · simpa only [List.filterMap_cons, hg] using hstep
      · rename_i e
        simp only [List.filterMap_cons, hg, List.filter_cons,
          hothers q (List.mem_cons_self q rest) hqp e hg]
        exact hstep

lemma effFlow_pauseAll (s : QB) (q : Nat) :
    effFlow ((pauseAll s).1) q = (s.lastFlows q).getD 0 := by
  simp only [pauseAll, effFlow]
  cases s.lastFlows q <;> simp

/-! ### Claim C3 — pauseAll then resumePumps restores flows -/

/-- Claim C3: after `pauseAll()` followed by `resumePumps` over all global
pump ids, a pump whose pre-pause `last_flow` was positive receives
exactly one command — a constant-flow command with exactly that flow on
its routed link and local id — and a pump whose pre-pause flow was zero,
negative or unrecorded receives no command at all. -/
theorem C3_pauseAll_resume_restores (s : QB) (p : Nat) (hp : p ∈ allIds)
    (l : LinkId) (loc : Nat) (hr : routePump p = some (l, loc)) :
    (((s.lastFlows p).getD 0 > 0 →
      List.filter (forPump p) ((resumePumps (pauseAll s).1 allIds).2.1)
        = [(l, Cmd.setFlow loc ((s.lastFlows p).getD 0))]) ∧
     (¬ (s.lastFlows p).getD 0 > 0 →
      List.filter (forPump p) ((resumePumps (pauseAll s).1 allIds).2.1) = [])) := by
  set g : Nat → Option (LinkId × Cmd) := fun q =>
    if effFlow ((pauseAll s).1) q > 0 then
      (routePump q).map (fun r => (r.1, Cmd.setFlow r.2 (effFlow ((pauseAll s).1) q)))
    else none with hg
  have htr : (resumePumps (pauseAll s).1 allIds).2.1 = allIds.filterMap g :=
    resumePumps_cmds (pauseAll s).1 allIds
  have hothers : ∀ q ∈ allIds, q ≠ p → ∀ e, g q = some e → forPump p e = false := by
    intro q _ hqp e he
    simp only [hg] at he
    by_cases hfq : effFlow ((pauseAll s).1) q > 0
    · rw [if_pos hfq] at he
      cases hrq : routePump q
      · rw [hrq] at he
        exact absurd he (by simp)
      · rename_i rq
        rw [hrq] at he
        have he' : (rq.1, Cmd.setFlow rq.2 (effFlow ((pauseAll s).1) q)) = e :=
          Option.some.inj he
        cases hfb : forPump p e
        · rfl
        · exfalso
          unfold forPump at hfb
          rw [hr, ← he'] at hfb
          simp only [Bool.and_eq_true, decide_eq_true_eq, cmdPump] at hfb
          have h1 : rq.1 = l := hfb.1
          have h2 : rq.2 = loc := Option.some.inj hfb.2
          have hre : routePump q = some (l, loc) := by
            rw [hrq, ← h1, ← h2]
          exact hqp (routePump_inj hre hr)
    · rw [if_neg hfq] at he
      exact absurd he (by simp)
  have hself : ∀ e, g p = some e → forPump p e = true := by
    intro e he
    simp only [hg] at he
    by_cases hfp : effFlow ((pauseAll s).1) p > 0
    · rw [if_pos hfp, hr] at he
      have he' : (l, Cmd.setFlow loc (effFlow ((pauseAll s).1) p)) = e :=
        Option.some.inj he
      unfold forPump
      rw [hr, ← he']
      simp [cmdPump]
    · rw [if_neg hfp] at he
      exact absurd he (by simp)
  have hflt : List.filter (forPump p) ((resumePumps (pauseAll s).1 allIds).2.1) = (g p).toList := by
    rw [htr]
    exact filter_filterMap_single hp (by decide) hothers hself
  constructor
  · intro hpos
    rw [hflt, hg]
    simp only [effFlow_pauseAll]
    rw [if_pos hpos, hr]
    rfl
  · intro hneg
    rw [hflt, hg]
    simp only [effFlow_pauseAll]
    rw [if_neg hneg]
    rfl

/-- Witness for C3: pump 1 paused at flow 10 is restored by exactly one
constant-flow command of 10 on link A local 1; pump 2 (no recorded flow)
gets none. -/
theorem C3_pauseAll_resume_restores_witness :
    List.filter (forPump 1)
        ((resumePumps (pauseAll ⟨upd (fun _ => none) 1 10, fun _ => none, ""⟩).1 allIds).2.1)
      = [(LinkId.A, Cmd.setFlow 1 10)] ∧
    List.filter (forPump 2)
        ((resumePumps (pauseAll ⟨upd (fun _ => none) 1 10, fun _ => none, ""⟩).1 allIds).2.1)
      = [] := by
  constructor
  · have h := (C3_pauseAll_resume_restores ⟨upd (fun _ => none) 1 10, fun _ => none, ""⟩
      1 (by decide) LinkId.A 1 (by decide)).1 (by norm_num [upd])
    simpa [upd] using h
  · exact (C3_pauseAll_resume_restores ⟨upd (fun _ => none) 1 10, fun _ => none, ""⟩
      2 (by decide) LinkId.B 1 (by decide)).2 (by norm_num [upd])

/-! ### Claim C8 — startAutomation -/

lemma lsw_pulsatile_con : lowerStartsWith ("Pulsatile") ("constant") = false := by decide

lemma lsw_pulsatile_pul : lowerStartsWith ("Pulsatile") ("pulsatile") = true := by decide

lemma lsw_constant_con : lowerStartsWith ("Constant") ("constant") = true := by decide

lemma autoStep_last (shape : String) (per duty : ℚ) (s : QB) (p : Nat) :
    ((autoStep shape per duty s p).1).lastFlows = s.lastFlows := by
  simp only [autoStep]
  split_ifs with hb
  · rfl
  · cases hr : routePump p
    · simp only [errEff, setError]
      split_ifs <;> rfl
    · rfl

lemma autoStep_cmds (s0 : QB) (shape : String) (per duty : ℚ) (s : QB) (p : Nat)
    (h : s.lastFlows = s0.lastFlows) :
    (autoStep shape per duty s p).2.1
      = (if (s0.lastFlows p).getD 0 > 0 then
          (routePump p).map (fun r =>
            (r.1, startWaveCmd r.2 shape per duty (some 0)
              (some ((s0.lastFlows p).getD 0)) none))
        else none).toList := by
  simp only [autoStep, errEff, h]
  by_cases hb : (s0.lastFlows p).getD 0 ≤ 0
  · rw [if_pos hb, if_neg (not_lt.mpr hb)]
    rfl
  · rw [if_neg hb, if_pos (not_le.mp hb)]
    cases hr : routePump p
    · rfl
    · rfl

/-- Claim C8: with mode `"Pulsatile"`, `startAutomation` emits exactly the
waves of the pumps with a positive recorded base — each one `0..base`
with the given shape, period and duty, and nothing for skipped pumps; a
positive period and an in-range duty pass through unchanged (duty as a
percentage); the concrete example base 30, period 10, duty 0.5 gives one
wave `min=0, max=30, duty=50, period=10`; mode `"Constant"` and every
unrecognized mode emit zero wire commands. -/
theorem C8_start_automation :
    (∀ (s : QB) (pumps : List Nat) (shape : String) (minutes per duty : ℚ),
      (startAutomation s pumps ("Pulsatile") shape minutes per duty).2.1
        = pumps.filterMap (fun p =>
            if (s.lastFlows p).getD 0 > 0 then
              (routePump p).map (fun r =>
                (r.1, startWaveCmd r.2 shape per duty (some 0)
                  (some ((s.lastFlows p).getD 0)) none))
            else none)) ∧
    (∀ (p : Nat) (shape : String) (per duty base : ℚ),
      0 < per → 0 < duty → duty < 1 → 0 < base →
      startWaveCmd p shape per duty (some 0) (some base) none
        = Cmd.wave p shape per (duty * 100) 0 base) ∧
    ((startAutomation ⟨upd (fun _ => none) 7 30, fun _ => none, ""⟩ [7]
        ("Pulsatile") ("Square") 5 10 (1/2)).2.1
      = [(LinkId.A, Cmd.wave 4 ("Square") 10 50 0 30)]) ∧
    (∀ (s : QB) (pumps : List Nat) (shape : String) (minutes per duty : ℚ),
      (startAutomation s pumps ("Constant") shape minutes per duty).2.1 = []) ∧
    (∀ (s : QB) (pumps : List Nat) (mode shape : String) (minutes per duty : ℚ),
      lowerStartsWith mode ("constant") = false →
      lowerStartsWith mode ("pulsatile") = false →
      (startAutomation s pumps mode shape minutes per duty).2.1 = []) := by
  refine ⟨?_, ?_, ?_, ?_, ?_⟩
  · intro s pumps shape minutes per duty
    simp only [startAutomation, lsw_pulsatile_con, lsw_pulsatile_pul, Bool.false_eq_true,
      if_false, if_true]
    exact runSteps_cmds (autoStep shape per duty) _ (fun t => t.lastFlows = s.lastFlows)
      (fun t p ht => ⟨autoStep_cmds s shape per duty t p ht,
        by show ((autoStep shape per duty t p).1).lastFlows = s.lastFlows
           rw [autoStep_last]
           exact ht⟩) pumps s rfl
  · intro p shape per duty base hper hd0 hd1 hbase
    have hb : deriveBounds (some 0) (some base) none = (0, base) := by
      simp [deriveBounds, max_eq_right hbase.le, hbase.not_lt]
    have hd : dutyNorm duty = duty := by
      simp [dutyNorm, not_le.mpr hd0, not_le.mpr hd1]
    have hp : periodNorm per = per := if_pos hper
    simp only [startWaveCmd, hb, hd, hp]
  · simp only [startAutomation, lsw_pulsatile_con, lsw_pulsatile_pul, Bool.false_eq_true,
      if_false, if_true]
    norm_num [runSteps, autoStep, upd, routePump, PUMP_MAP_A, PUMP_MAP_B,
      startWaveCmd, deriveBounds, dutyNorm, periodNorm]
  · intro s pumps shape minutes per duty
    simp [startAutomation, lsw_constant_con]
  · intro s pumps mode shape minutes per duty h1 h2
    simp [startAutomation, h1, h2]

/-- Witness for C8: the pass-through wave at period 10, duty 0.5, base
30, and the zero-command fact at the unrecognized mode `"Foo"`. -/
theorem C8_start_automation_witness :
    startWaveCmd 4 ("Square") 10 (1/2) (some 0) (some 30) none
      = Cmd.wave 4 ("Square") 10 (1/2 * 100) 0 30 ∧
    (startAutomation QB.init [1, 2, 3] ("Foo") ("Square") 5 10 (1/2)).2.1 = [] :=
  ⟨C8_start_automation.2.1 4 ("Square") 10 (1/2) 30 (by norm_num) (by norm_num)
      (by norm_num) (by norm_num),
   C8_start_automation.2.2.2.2 QB.init [1, 2, 3] ("Foo") ("Square") 5 10 (1/2)
      (by decide) (by decide)⟩

/-! ### Claim C9 — de-duplicated error notifications -/

/-- The error-notification contract of a block of emissions: relative to
the stored error `e0` on entry, the emitted error texts form a chain of
pairwise distinct consecutive values starting after `e0`, and the stored
error on exit `e1` is the last emitted text (or `e0` if none). -/
def ErrOk (e0 : String) (sigs : List Sig) (e1 : String) : Prop :=
  List.Chain (fun a b => a ≠ b) e0 (errTexts sigs) ∧ e1 = (errTexts sigs).getLastD e0

lemma errTexts_append (g1 g2 : List Sig) :
    errTexts (g1 ++ g2) = errTexts g1 ++ errTexts g2 :=
  List.filterMap_append g1 g2 _

lemma getLastD_append_str (l1 l2 : List String) (d : String) :
    (l1 ++ l2).getLastD d = l2.getLastD (l1.getLastD d) := by
  induction l1 generalizing d with
  | nil => rfl
  | cons a t ih =>
    rw [List.cons_append, List.getLastD_cons, List.getLastD_cons]
    exact ih a

lemma chain_append_last {R : String → String → Prop} :
    ∀ (t1 : List String) (e0 : String) (t2 : List String),
      List.Chain R e0 t1 → List.Chain R (t1.getLastD e0) t2 →
      List.Chain R e0 (t1 ++ t2) := by
  intro t1
  induction t1 with
  | nil => intro e0 t2 _ h2; exact h2
  | cons a t ih =>
    intro e0 t2 h1 h2
    rw [List.getLastD_cons] at h2
    rcases List.chain_cons.mp h1 with ⟨hab, hat⟩
    rw [List.cons_append]
    exact List.chain_cons.mpr ⟨hab, ih a t2 hat h2⟩

lemma errok_nil (e : String) : ErrOk e [] e := ⟨List.Chain.nil, rfl⟩

lemma errok_comp {e0 e1 e2 : String} {g1 g2 : List Sig}
    (h1 : ErrOk e0 g1 e1) (h2 : ErrOk e1 g2 e2) : ErrOk e0 (g1 ++ g2) e2 := by
  obtain ⟨c1, l1⟩ := h1
  obtain ⟨c2, l2⟩ := h2
  constructor
  · rw [errTexts_append]
    exact chain_append_last _ _ _ c1 (l1 ▸ c2)
  · rw [errTexts_append, getLastD_append_str, ← l1]
    exact l2

lemma setError_errok (s : QB) (m : String) :
    ErrOk s.lastError (setError s m).2 ((setError s m).1).lastError := by
  unfold setError
  split_ifs with h
  · exact errok_nil _
  · exact ⟨List.chain_cons.mpr ⟨fun hh => h hh.symm, List.Chain.nil⟩, rfl⟩

lemma errEff_errok (s : QB) (p : Nat) :
    ErrOk s.lastError (errEff s p).2.2 ((errEff s p).1).lastError :=
  setError_errok s (invalidMsg p)

lemma runSteps_errok {f : QB → Nat → QB × List (LinkId × Cmd) × List Sig}
    (hstep : ∀ s p, ErrOk s.lastError (f s p).2.2 ((f s p).1).lastError) :
    ∀ (ids : List Nat) (s : QB),
      ErrOk s.lastError (runSteps f s ids).2.2 ((runSteps f s ids).1).lastError := by
  intro ids
  induction ids with
  | nil => intro s; exact errok_nil _
  | cons p rest ih =>
    intro s
    simp only [runSteps]
    exact errok_comp (hstep s p) (ih (f s p).1)

lemma pauseStep_errok (s : QB) (p : Nat) :
    ErrOk s.lastError (pauseStep s p).2.2 ((pauseStep s p).1).lastError := by
  unfold pauseStep
  cases hl : s.lastFlows p
  · cases hr : routePump p
    · exact errEff_errok s p
    · exact errok_nil _
  · rename_i v
    cases hr : routePump p
    · exact errEff_errok { s with pausedFlows := upd s.pausedFlows p v } p
    · exact errok_nil _

lemma resumeStep_errok (s : QB) (p : Nat) :
    ErrOk s.lastError (resumeStep s p).2.2 ((resumeStep s p).1).lastError := by
  simp only [resumeStep]
  split_ifs with hf
  · cases hr : routePump p
    · exact errEff_errok s p
    · exact errok_nil _
  · exact errok_nil _

lemma autoStep_errok (shape : String) (per duty : ℚ) (s : QB) (p : Nat) :
    ErrOk s.lastError (autoStep shape per duty s p).2.2
      ((autoStep shape per duty s p).1).lastError := by
  simp only [autoStep]
  split_ifs with hb
  · exact errok_nil _
  · cases hr : routePump p
    · exact errEff_errok s p
    · exact errok_nil _

lemma step_errok (s : QB) (op : Op) :
    ErrOk s.lastError (step s op).2.2 ((step s op).1).lastError := by
  cases op with
  | connect a b =>
    show ErrOk s.lastError (qopen s a b).2.2 ((qopen s a b).1).lastError
    cases hok : (a && b) <;> simp only [qopen, hok] <;>
      first
        | exact setError_errok s ("Failed to open one or both serial ports")
        | exact setError_errok s ("")
  | disconnect => exact errok_nil _
  | primeOp p =>
    show ErrOk s.lastError (qprime s p).2.2 ((qprime s p).1).lastError
    simp only [qprime]
    cases hr : routePump p
    · exact errEff_errok s p
    · exact errok_nil _
  | stopOp p =>
    show ErrOk s.lastError (qstop s p).2.2 ((qstop s p).1).lastError
    simp only [qstop]
    cases hr : routePump p
    · exact errEff_errok s p
    · exact errok_nil _
  | stopAllOp => exact errok_nil _
  | setFlowOp p f =>
    show ErrOk s.lastError (qsetFlow s p f).2.2 ((qsetFlow s p f).1).lastError
    simp only [qsetFlow]
    cases hr : routePump p
    · exact errEff_errok s p
    · exact errok_nil _
  | pauseAllOp => exact errok_nil _
  | pausePumpsOp ids => exact runSteps_errok pauseStep_errok ids s
  | resumePumpsOp ids =>
    show ErrOk s.lastError (resumePumps s ids).2.2 ((resumePumps s ids).1).lastError
    simp only [resumePumps]
    exact runSteps_errok resumeStep_errok ids s
  | autoOp pumps mode shape minutes per duty =>
    show ErrOk s.lastError (startAutomation s pumps mode shape minutes per duty).2.2
      ((startAutomation s pumps mode shape minutes per duty).1).lastError
    simp only [startAutomation]
    split_ifs with h1 h2
    · exact errok_nil _
    · exact runSteps_errok (autoStep_errok shape per duty) pumps s
    · exact errok_nil _
  | waveForPumpOp p shape per duty mn mx =>
    show ErrOk s.lastError (startWaveForPump s p shape per duty mn mx).2.2
      ((startWaveForPump s p shape per duty mn mx).1).lastError
    simp only [startWaveForPump]
    cases hr : routePump p
    · exact errEff_errok s p
    · split_ifs with h
      · exact errok_nil _
      · exact errok_nil _
  | calibrateOp p v =>
    show ErrOk s.lastError (setCalibration s p v).2.2 ((setCalibration s p v).1).lastError
    simp only [setCalibration]
    cases hr : routePump p
    · exact errEff_errok s p
    · exact errok_nil _

lemma run_errok : ∀ (ops : List Op) (s : QB),
    ErrOk s.lastError (run s ops).2.2 ((run s ops).1).lastError := by
  intro ops
  induction ops with
  | nil => intro s; exact errok_nil _
  | cons o rest ih =>
    intro s
    simp only [run]
    exact errok_comp (step_errok s o) (ih (step s o).1)

/-- Claim C9: across any sequence of controller operations started from a
fresh backend, the texts carried by consecutive `lastErrorChanged`
emissions always differ (each emission is recorded and only emitted when
it differs from the stored error); a successful connect stores the empty
error text, re-arming the notification; and two identically failing
connects emit the failure message exactly once. -/
theorem C9_error_deduplication :
    (∀ ops : List Op,
      List.Chain' (fun a b => a ≠ b) (errTexts ((run QB.init ops).2.2))) ∧
    (∀ s : QB, ((step s (Op.connect true true)).1).lastError = "") ∧
    errTexts ((run QB.init [Op.connect false true, Op.connect false true]).2.2)
      = ["Failed to open one or both serial ports"] := by
  refine ⟨?_, ?_, ?_⟩
  · intro ops
    have h : List.Chain (fun a b => a ≠ b) ("")
        (errTexts ((run QB.init ops).2.2)) := (run_errok ops QB.init).1
    have h2 : List.Chain' (fun a b => a ≠ b)
        (("") :: errTexts ((run QB.init ops).2.2)) := h
    exact h2.tail
  · intro s
    have hred : ((step s (Op.connect true true)).1) = (setError s ("")).1 := rfl
    rw [hred]
    unfold setError
    split_ifs with h
    · exact h.symm
    · rfl
  · rfl

/-! ### Claim C10 — wave period strictly positive -/

lemma periodNorm_pos (per : ℚ) : 0 < periodNorm per := by
  unfold periodNorm
  split_ifs with h
  · exact h
  · norm_num

lemma startWaveCmd_periodPos (pump : Nat) (shape : String) (per duty : ℚ)
    (a b c : Option ℚ) (q : ℚ)
    (h : wavePeriod (startWaveCmd pump shape per duty a b c) = some q) : 0 < q := by
  have hq : q = periodNorm per := (Option.some.inj h).symm
  rw [hq]
  exact periodNorm_pos per

lemma runSteps_forall (f : QB → Nat → QB × List (LinkId × Cmd) × List Sig)
    (P : LinkId × Cmd → Prop) (hstep : ∀ s p, ∀ e ∈ (f s p).2.1, P e) :
    ∀ (ids : List Nat) (s : QB), ∀ e ∈ (runSteps f s ids).2.1, P e := by
  intro ids
  induction ids with
  | nil => intro s e he; cases he
  | cons p rest ih =>
    intro s e he
    simp only [runSteps] at he
    rcases List.mem_append.mp he with h | h
    · exact hstep s p e h
    · exact ih (f s p).1 e h

lemma mem_one {α : Type} {e a : α} (h : e ∈ [a]) : e = a := by
  cases h with
  | head => rfl
  | tail _ hh => cases hh

lemma mem_two {α : Type} {e a b : α} (h : e ∈ [a, b]) : e = a ∨ e = b := by
  cases h with
  | head => exact Or.inl rfl
  | tail _ hh => exact Or.inr (mem_one hh)

lemma pauseStep_periodPos (s : QB) (p : Nat) :
    ∀ e ∈ (pauseStep s p).2.1, ∀ q : ℚ, wavePeriod e.2 = some q → 0 < q := by
  intro e he q hq
  rw [pauseStep_cmds] at he
  cases hr : routePump p <;> rw [hr] at he
  · cases he
  · rename_i val
    have he2 : e ∈ [(val.1, Cmd.stop val.2)] := he
    rw [mem_one he2] at hq
    cases hq

lemma resumeStep_periodPos (s : QB) (p : Nat) :
    ∀ e ∈ (resumeStep s p).2.1, ∀ q : ℚ, wavePeriod e.2 = some q → 0 < q := by
  intro e he q hq
  rw [resumeStep_cmds s s p (fun _ => rfl)] at he
  by_cases hf : effFlow s p > 0
  · rw [if_pos hf] at he
    cases hr : routePump p <;> rw [hr] at he
    · cases he
    · rename_i val
      have he2 : e ∈ [(val.1, Cmd.setFlow val.2 (effFlow s p))] := he
      rw [mem_one he2] at hq
      cases hq
  · rw [if_neg hf] at he
    cases he

lemma autoStep_periodPos (shape : String) (per duty : ℚ) (s : QB) (p : Nat) :
    ∀ e ∈ (autoStep shape per duty s p).2.1, ∀ q : ℚ, wavePeriod e.2 = some q → 0 < q := by
  intro e he q hq
  rw [autoStep_cmds s shape per duty s p rfl] at he
  by_cases hb : (s.lastFlows p).getD 0 > 0
  · rw [if_pos hb] at he
    cases hr : routePump p <;> rw [hr] at he
    · cases he
    · rename_i val
      have he2 : e ∈ [(val.1, startWaveCmd val.2 shape per duty (some 0)
          (some ((s.lastFlows p).getD 0)) none)] := he
      rw [mem_one he2] at hq
      exact startWaveCmd_periodPos _ _ _ _ _ _ _ q hq
  · rw [if_neg hb] at he
    cases he

lemma step_periodPos (s : QB) (op : Op) :
    ∀ e ∈ (step s op).2.1, ∀ q : ℚ, wavePeriod e.2 = some q → 0 < q := by
  cases op with
  | connect a b => intro e he; cases he
  | disconnect => intro e he; cases he
  | primeOp p =>
    intro e he q hq
    have hc : (step s (Op.primeOp p)).2.1 = (qprime s p).2.1 := rfl
    rw [hc] at he
    revert he
    simp only [qprime]
    cases hr : routePump p
    · intro he; cases he
    · rename_i val
      intro he
      have he2 : e ∈ [(val.1, Cmd.prime val.2)] := he
      rw [mem_one he2] at hq
      cases hq
  | stopOp p =>
    intro e he q hq
    have hc : (step s (Op.stopOp p)).2.1 = (qstop s p).2.1 := rfl
    rw [hc] at he
    revert he
    simp only [qstop]
    cases hr : routePump p
    · intro he; cases he
    · rename_i val
      intro he
      have he2 : e ∈ [(val.1, Cmd.stop val.2), (val.1, waveOffCmd val.2 0)] := he
      rcases mem_two he2 with h | h
      · rw [h] at hq; cases hq
      · rw [h] at hq
        exact startWaveCmd_periodPos _ _ _ _ _ _ _ q hq
  | stopAllOp =>
    intro e he q hq
    have he2 : e ∈ [(LinkId.A, Cmd.stopAll), (LinkId.B, Cmd.stopAll)] := he
    rcases mem_two he2 with h | h <;> rw [h] at hq <;> cases hq
  | setFlowOp p f =>
    intro e he q hq
    have hc : (step s (Op.setFlowOp p f)).2.1 = (qsetFlow s p f).2.1 := rfl
    rw [hc] at he
    revert he
    simp only [qsetFlow]
    cases hr : routePump p
    · intro he; cases he
    · rename_i val
      intro he
      have he2 : e ∈ [(val.1, Cmd.setFlow val.2 f)] := he
      rw [mem_one he2] at hq
      cases hq
  | pauseAllOp =>
    intro e he q hq
    have he2 : e ∈ [(LinkId.A, Cmd.stopAll), (LinkId.B, Cmd.stopAll)] := he
    rcases mem_two he2 with h | h <;> rw [h] at hq <;> cases hq
  | pausePumpsOp ids =>
    exact runSteps_forall pauseStep (fun e => ∀ q : ℚ, wavePeriod e.2 = some q → 0 < q)
      pauseStep_periodPos ids s
  | resumePumpsOp ids =>
    intro e he
    have hc : (step s (Op.resumePumpsOp ids)).2.1 = (runSteps resumeStep s ids).2.1 := rfl
    rw [hc] at he
    exact runSteps_forall resumeStep (fun e => ∀ q : ℚ, wavePeriod e.2 = some q → 0 < q)
      resumeStep_periodPos ids s e he
  | autoOp pumps mode shape minutes per duty =>
    intro e he
    have hc : (step s (Op.autoOp pumps mode shape minutes per duty)).2.1
        = (startAutomation s pumps mode shape minutes per duty).2.1 := rfl
    rw [hc] at he
    revert he
    simp only [startAutomation]
    split_ifs with h1 h2
    · intro he; cases he
    · intro he
      exact runSteps_forall (autoStep shape per duty)
        (fun e => ∀ q : ℚ, wavePeriod e.2 = some q → 0 < q)
        (autoStep_periodPos shape per duty) pumps s e he
    · intro he; cases he
  | waveForPumpOp p shape per duty mn mx =>
    intro e he q hq
    have hc : (step s (Op.waveForPumpOp p shape per duty mn mx)).2.1
        = (startWaveForPump s p shape per duty mn mx).2.1 := rfl
    rw [hc] at he
    revert he
    simp only [startWaveForPump]
    cases hr : routePump p
    · intro he; cases he
    · rename_i val
      intro he
      have he2 : e ∈ [(val.1, startWaveCmd val.2 shape per duty (some mn) (some mx) none)] := by
        by_cases hm : mx > 0
        · rw [if_pos hm] at he; exact he
        · rw [if_neg hm] at he; exact he
      rw [mem_one he2] at hq
      exact startWaveCmd_periodPos _ _ _ _ _ _ _ q hq
  | calibrateOp p v =>
    intro e he q hq
    have hc : (step s (Op.calibrateOp p v)).2.1 = (setCalibration s p v).2.1 := rfl
    rw [hc] at he
    revert he
    simp only [setCalibration]
    cases hr : routePump p
    · intro he; cases he
    · intro he; cases he

lemma run_periodPos : ∀ (ops : List Op) (s : QB),
    ∀ e ∈ (run s ops).2.1, ∀ q : ℚ, wavePeriod e.2 = some q → 0 < q := by
  intro ops
  induction ops with
  | nil => intro s e he; cases he
  | cons o rest ih =>
    intro s e he
    simp only [run] at he
    rcases List.mem_append.mp he with h | h
    · exact step_periodPos s o e h
    · exact ih (step s o).1 e h

/-- Claim C10: a non-positive `period_sec` is replaced by `1.0` in the
emitted wave command, the emitted period is always the normalized period,
the normalized period is strictly positive, and hence every wave frame in
the wire trace of any run of the controller carries a period `> 0`. -/
theorem C10_wave_period_positive :
    (∀ (pump : Nat) (shape : String) (per duty : ℚ) (a b c : Option ℚ),
      per ≤ 0 → wavePeriod (startWaveCmd pump shape per duty a b c) = some 1) ∧
    (∀ (pump : Nat) (shape : String) (per duty : ℚ) (a b c : Option ℚ),
      wavePeriod (startWaveCmd pump shape per duty a b c) = some (periodNorm per)) ∧
    (∀ per : ℚ, 0 < periodNorm per) ∧
    (∀ (ops : List Op) (e : LinkId × Cmd), e ∈ (run QB.init ops).2.1 →
      ∀ q : ℚ, wavePeriod e.2 = some q → 0 < q) := by
  refine ⟨?_, ?_, ?_, ?_⟩
  · intro pump shape per duty a b c h
    show some (periodNorm per) = some 1
    rw [periodNorm, if_neg (not_lt.mpr h)]
  · intro pump shape per duty a b c
    rfl
  · exact periodNorm_pos
  · intro ops e he q hq
    exact run_periodPos ops QB.init e he q hq

/-- Witness for C10: a wave requested with period 0 is emitted with
period 1. -/
theorem C10_wave_period_positive_witness :
    wavePeriod (startWaveCmd 1 ("Square") 0 (1/2) none none none) = some 1 :=
  C10_wave_period_positive.1 1 ("Square") 0 (1/2) none none none le_rfl

end MultiPump
